import Mathlib

/-!
Verification of the non-blocking interval timer sketch
(`src/src/esp1.cpp` plus the `AsyncDelay_c` utility it depends on).

Times are milliseconds on a monotonic clock, modelled as `Nat`.
The timer state is explicit: `isExpired` takes the current time and the
timer and returns the boolean result together with the updated timer.
-/

/-- Modelled from the spec: the `AsyncDelay_c` class declared in
`util/asyncDelay.h` (not present under `src/`).  It stores the interval
`intervalMs`, fixed at construction, and `lastTriggerTime`, the monotonic
timestamp recorded at construction and at every expiration. -/
structure AsyncDelay_c where
  intervalMs : Nat
  lastTriggerTime : Nat
  deriving Repr, DecidableEq

/-- Modelled from the spec: the constructor `AsyncDelay_c(intervalMs)` —
captures the current monotonic time as `lastTriggerTime` and stores
`intervalMs`. -/
def AsyncDelay_c.construct (interval now : Nat) : AsyncDelay_c :=
  ⟨interval, now⟩

/-- Modelled from the spec: `isExpired()`.  Computes
`elapsed = now() - lastTriggerTime`; if `elapsed >= intervalMs` it sets
`lastTriggerTime = now()` (not `lastTriggerTime + intervalMs`) and returns
true; otherwise it returns false with no state change. -/
def AsyncDelay_c.isExpired (now : Nat) (t : AsyncDelay_c) :
    Bool × AsyncDelay_c :=
  if t.intervalMs ≤ now - t.lastTriggerTime then
    (true, ⟨t.intervalMs, now⟩)
  else
    (false, t)

/-- Result of one `isExpired` poll. -/
def AsyncDelay_c.fires (now : Nat) (t : AsyncDelay_c) : Bool :=
  (t.isExpired now).fst

/-- Timer state after one `isExpired` poll. -/
def AsyncDelay_c.afterPoll (now : Nat) (t : AsyncDelay_c) : AsyncDelay_c :=
  (t.isExpired now).snd

/-- Run a timer through a list of poll times, collecting the results. -/
def AsyncDelay_c.run (t : AsyncDelay_c) : List Nat → List Bool
  | [] => []
  | n :: ns => (t.isExpired n).fst :: AsyncDelay_c.run (t.isExpired n).snd ns

/-- Timer state after the first `k` polls of the poll-time sequence
`poll : Nat → Nat` (poll `i` happens at time `poll i`). -/
def AsyncDelay_c.stateAfter (t : AsyncDelay_c) (poll : Nat → Nat) :
    Nat → AsyncDelay_c
  | 0 => t
  | k + 1 => ((t.stateAfter poll k).isExpired (poll k)).snd

/-- Whether poll `k` of the sequence `poll` reports expiration. -/
def AsyncDelay_c.firesAt (t : AsyncDelay_c) (poll : Nat → Nat) (k : Nat) :
    Bool :=
  ((t.stateAfter poll k).isExpired (poll k)).fst

/-- Poll times for fixed-rate polling with spacing `p`, starting one
period after the construction time `t0`: poll `k` happens at
`t0 + p * (k + 1)`. -/
def pollSeq (t0 p k : Nat) : Nat :=
  t0 + p * (k + 1)

/-- Digital pin state of the board: each pin number carries a level. -/
def PinState : Type := Nat → Bool

/-- From `esp1.cpp` (Arduino capability): read the level of a pin. -/
def digitalRead (s : PinState) (pin : Nat) : Bool := s pin

/-- From `esp1.cpp` (Arduino capability): set the level of a pin. -/
def digitalWrite (s : PinState) (pin : Nat) (v : Bool) : PinState :=
  fun q => if q = pin then v else s q

/-- From `esp1.cpp`:
`void blinkLEDFunc(uint8_t pin) { digitalWrite(pin, !digitalRead(pin)); }` -/
def blinkLEDFunc (pin : Nat) (s : PinState) : PinState :=
  digitalWrite s pin (!digitalRead s pin)

/-- From `esp1.cpp`: the two global timers of the sketch,
`AsyncDelay_c blinkLED(500);` and `AsyncDelay_c delayPOT(50);`,
constructed at the same instant `t0`. -/
def sketchTimers (t0 : Nat) : AsyncDelay_c × AsyncDelay_c :=
  (AsyncDelay_c.construct 500 t0, AsyncDelay_c.construct 50 t0)

/-- From `esp1.cpp`: one pass of `loop()` restricted to the timer queries —
`blinkLED.isExpired()` then `delayPOT.isExpired()` at the same poll time. -/
def loopStep (now : Nat) (s : AsyncDelay_c × AsyncDelay_c) :
    (Bool × Bool) × (AsyncDelay_c × AsyncDelay_c) :=
  (((s.1.isExpired now).fst, (s.2.isExpired now).fst),
   ((s.1.isExpired now).snd, (s.2.isExpired now).snd))

/-- Repeated passes of `loop()` over a list of poll times, collecting the
pair of `isExpired` results of each pass. -/
def loopRun (s : AsyncDelay_c × AsyncDelay_c) :
    List Nat → List (Bool × Bool)
  | [] => []
  | n :: ns => (loopStep n s).fst :: loopRun (loopStep n s).snd ns

namespace AsyncDelay_c

lemma isExpired_fst (now : Nat) (t : AsyncDelay_c) :
    (t.isExpired now).fst = decide (t.intervalMs ≤ now - t.lastTriggerTime) := by
  unfold isExpired
  by_cases h : t.intervalMs ≤ now - t.lastTriggerTime <;> simp [h]

lemma isExpired_snd_of_true {now : Nat} {t : AsyncDelay_c}
    (h : (t.isExpired now).fst = true) :
    (t.isExpired now).snd = ⟨t.intervalMs, now⟩ := by
  unfold isExpired at *
  by_cases hc : t.intervalMs ≤ now - t.lastTriggerTime <;> simp [hc] at h ⊢

lemma isExpired_snd_of_false {now : Nat} {t : AsyncDelay_c}
    (h : (t.isExpired now).fst = false) :
    (t.isExpired now).snd = t := by
  unfold isExpired at *
  by_cases hc : t.intervalMs ≤ now - t.lastTriggerTime <;> simp [hc] at h ⊢

lemma isExpired_snd_intervalMs (now : Nat) (t : AsyncDelay_c) :
    (t.isExpired now).snd.intervalMs = t.intervalMs := by
  unfold isExpired
  by_cases hc : t.intervalMs ≤ now - t.lastTriggerTime <;> simp [hc]

lemma stateAfter_intervalMs (t : AsyncDelay_c) (poll : Nat → Nat) (k : Nat) :
    (t.stateAfter poll k).intervalMs = t.intervalMs := by
  induction k with
  | zero => rfl
  | succ k ih =>
      show ((t.stateAfter poll k).isExpired (poll k)).snd.intervalMs = _
      rw [isExpired_snd_intervalMs, ih]

end AsyncDelay_c

namespace AsyncDelay_c

lemma run_zero_interval (ts : List Nat) :
    ∀ t : AsyncDelay_c, t.intervalMs = 0 →
      t.run ts = ts.map (fun _ => true) := by
  induction ts with
  | nil => intro t _; rfl
  | cons n ns ih =>
      intro t h0
      have hfst : (t.isExpired n).fst = true := by
        rw [isExpired_fst, h0]; simp
      have hint : (t.isExpired n).snd.intervalMs = 0 := by
        rw [isExpired_snd_intervalMs, h0]
      simp [run, hfst, ih _ hint]

end AsyncDelay_c

/-- C1: for every constructed `AsyncDelay_c` with interval `I`, a call to
`isExpired` made at a monotonic time `now` strictly before
`lastTriggerTime + I` (elapsed time `< I` since the last (re)arm) returns
false: no early firing. -/
theorem C1_no_early_firing (now : Nat) (t : AsyncDelay_c)
    (hmono : t.lastTriggerTime ≤ now)
    (hlt : now < t.lastTriggerTime + t.intervalMs) :
    (t.isExpired now).fst = false := by
  rw [AsyncDelay_c.isExpired_fst]
  simp only [decide_eq_false_iff_not]
  omega

/-- Witness for C1: the timer `AsyncDelay_c blinkLED(500)` constructed at
time 0, polled at time 100, does not report expiration. -/
theorem C1_no_early_firing_witness :
    (AsyncDelay_c.construct 500 0).lastTriggerTime ≤ 100 ∧
    100 < (AsyncDelay_c.construct 500 0).lastTriggerTime +
      (AsyncDelay_c.construct 500 0).intervalMs ∧
    ((AsyncDelay_c.construct 500 0).isExpired 100).fst = false :=
  ⟨by decide, by decide,
    C1_no_early_firing 100 (AsyncDelay_c.construct 500 0)
      (by decide) (by decide)⟩

/-- C2: a call to `isExpired` made at elapsed time `≥ I` since the last
(re)arm (`lastTriggerTime + I ≤ now`) returns true; firing exactly at the
boundary `now = lastTriggerTime + I` is included. -/
theorem C2_fires_at_boundary (now : Nat) (t : AsyncDelay_c)
    (h : t.lastTriggerTime + t.intervalMs ≤ now) :
    (t.isExpired now).fst = true := by
  rw [AsyncDelay_c.isExpired_fst]
  simp only [decide_eq_true_eq]
  omega

/-- Witness for C2: the timer constructed with interval 500 at time 0,
polled exactly at the boundary time 500, reports expiration. -/
theorem C2_fires_at_boundary_witness :
    (AsyncDelay_c.construct 500 0).lastTriggerTime +
      (AsyncDelay_c.construct 500 0).intervalMs ≤ 500 ∧
    ((AsyncDelay_c.construct 500 0).isExpired 500).fst = true :=
  ⟨by decide, C2_fires_at_boundary 500 (AsyncDelay_c.construct 500 0) (by decide)⟩

/-- Counterexample to C3 as stated: for the timer constructed with
interval 0 at time 0, `isExpired` at time 0 returns true, yet the
subsequent call made immediately after (elapsed time 0) returns true
again, not false. -/
theorem C3_counterexample :
    ¬ (((AsyncDelay_c.construct 0 0).isExpired 0).fst = true →
       ((((AsyncDelay_c.construct 0 0).isExpired 0).snd).isExpired 0).fst = false) := by
  decide

/-- C3 (amended: restricted to timers with `intervalMs > 0`): whenever
`isExpired` returns true, it rearms by setting `lastTriggerTime` to the
current sampled time `now` (not `lastTriggerTime + intervalMs`), and a
subsequent call made immediately after (elapsed time 0) returns false. -/
theorem C3_rearm_on_fire (now : Nat) (t : AsyncDelay_c)
    (hpos : 0 < t.intervalMs)
    (h : (t.isExpired now).fst = true) :
    (t.isExpired now).snd.lastTriggerTime = now ∧
    (((t.isExpired now).snd).isExpired now).fst = false := by
  have hs := AsyncDelay_c.isExpired_snd_of_true h
  refine ⟨by rw [hs], ?_⟩
  rw [hs, AsyncDelay_c.isExpired_fst]
  simp only [decide_eq_false_iff_not]
  omega

/-- Witness for C3 (amended): the interval-500 timer constructed at time 0
and polled at time 700 fires, rearms to 700, and an immediate second poll
at time 700 returns false. -/
theorem C3_rearm_on_fire_witness :
    0 < (AsyncDelay_c.construct 500 0).intervalMs ∧
    ((AsyncDelay_c.construct 500 0).isExpired 700).fst = true ∧
    (((AsyncDelay_c.construct 500 0).isExpired 700).snd.lastTriggerTime = 700 ∧
     ((((AsyncDelay_c.construct 500 0).isExpired 700).snd).isExpired 700).fst = false) :=
  ⟨by decide, by decide,
    C3_rearm_on_fire 700 (AsyncDelay_c.construct 500 0) (by decide) (by decide)⟩

/-- C4: the timer constructed with interval 500 at `t = 0`, polled at
`t = 100, 200, ..., 2000` in steps of 100, reports expiration exactly at
the polls `t = 500, 1000, 1500, 2000` (4 firings over 2000 ms) and false
at every other poll. -/
theorem C4_example_scenario :
    (AsyncDelay_c.construct 500 0).run
      [100, 200, 300, 400, 500, 600, 700, 800, 900, 1000,
       1100, 1200, 1300, 1400, 1500, 1600, 1700, 1800, 1900, 2000] =
    [false, false, false, false, true, false, false, false, false, true,
     false, false, false, false, true, false, false, false, false, true] := by
  decide

/-- C6: every call to `isExpired` that returns false leaves the timer's
state completely unchanged: both `lastTriggerTime` and `intervalMs` have
the same values after the call as before it. -/
theorem C6_false_leaves_state_unchanged (now : Nat) (t : AsyncDelay_c)
    (h : (t.isExpired now).fst = false) :
    (t.isExpired now).snd.lastTriggerTime = t.lastTriggerTime ∧
    (t.isExpired now).snd.intervalMs = t.intervalMs := by
  rw [AsyncDelay_c.isExpired_snd_of_false h]
  exact ⟨rfl, rfl⟩

/-- Witness for C6: the interval-500 timer constructed at time 0, polled
at time 100, returns false and keeps `lastTriggerTime = 0` and
`intervalMs = 500`. -/
theorem C6_false_leaves_state_unchanged_witness :
    ((AsyncDelay_c.construct 500 0).isExpired 100).fst = false ∧
    (((AsyncDelay_c.construct 500 0).isExpired 100).snd.lastTriggerTime =
       (AsyncDelay_c.construct 500 0).lastTriggerTime ∧
     ((AsyncDelay_c.construct 500 0).isExpired 100).snd.intervalMs =
       (AsyncDelay_c.construct 500 0).intervalMs) :=
  ⟨by decide,
    C6_false_leaves_state_unchanged 100 (AsyncDelay_c.construct 500 0) (by decide)⟩

/-- C7: polling two timers together in the sketch's `loop` produces, for
each timer, exactly the sequence of `isExpired` results it would produce
if polled alone: neither timer's construction or polling interferes with
the other. -/
theorem C7_timers_independent (a b : AsyncDelay_c) (ts : List Nat) :
    (loopRun (a, b) ts).map Prod.fst = a.run ts ∧
    (loopRun (a, b) ts).map Prod.snd = b.run ts := by
  induction ts generalizing a b with
  | nil => exact ⟨rfl, rfl⟩
  | cons n ns ih =>
      have h := ih (a.isExpired n).snd (b.isExpired n).snd
      simp [loopRun, loopStep, AsyncDelay_c.run, h.1, h.2]

/-- C8: a timer constructed with `intervalMs = 0` is always expired:
over any sequence of polls, every call to `isExpired` returns true,
regardless of how little time has elapsed since the previous call. -/
theorem C8_zero_interval_always_expired (t0 : Nat) (ts : List Nat) :
    (AsyncDelay_c.construct 0 t0).run ts = ts.map (fun _ => true) :=
  AsyncDelay_c.run_zero_interval ts (AsyncDelay_c.construct 0 t0) rfl

/-- C9: `intervalMs` is fixed at construction and immutable thereafter:
for every timer and every sequence of `isExpired` calls, the value of
`intervalMs` observed after the sequence equals the value passed at
construction. -/
theorem C9_interval_immutable (interval t0 : Nat) (poll : Nat → Nat) (k : Nat) :
    ((AsyncDelay_c.construct interval t0).stateAfter poll k).intervalMs =
      interval := by
  rw [AsyncDelay_c.stateAfter_intervalMs]
  rfl

/-- C10: `blinkLEDFunc pin` writes the logical negation of the pin's
currently read digital state, so each call toggles the pin, and two
consecutive calls on the same pin (with no other writes in between)
restore the original pin state: toggling is an involution. -/
theorem C10_blink_toggles_involution (pin : Nat) (s : PinState) :
    blinkLEDFunc pin s pin = !(s pin) ∧
    blinkLEDFunc pin (blinkLEDFunc pin s) = s := by
  constructor
  · simp [blinkLEDFunc, digitalWrite, digitalRead]
  · funext q
    by_cases h : q = pin <;>
      simp [blinkLEDFunc, digitalWrite, digitalRead, h]

namespace AsyncDelay_c

lemma stateAfter_segment (t : AsyncDelay_c) (poll : Nat → Nat) (i : Nat) :
    ∀ j, i < j → t.firesAt poll i = true →
      (∀ m, i < m → m < j → t.firesAt poll m = false) →
      t.stateAfter poll j = ⟨t.intervalMs, poll i⟩ := by
  intro j
  induction j with
  | zero => intro h; omega
  | succ j ih =>
      intro hij hfi hmid
      rcases Nat.lt_or_ge i j with hij2 | hge
      · have hstate := ih hij2 hfi (fun m h1 h2 => hmid m h1 (by omega))
        have hfj : ((t.stateAfter poll j).isExpired (poll j)).fst = false :=
          hmid j hij2 (Nat.lt_succ_self j)
        show ((t.stateAfter poll j).isExpired (poll j)).snd = _
        rw [isExpired_snd_of_false hfj, hstate]
      · have hji : i = j := by omega
        subst hji
        have hfi' : ((t.stateAfter poll i).isExpired (poll i)).fst = true := hfi
        show ((t.stateAfter poll i).isExpired (poll i)).snd = _
        rw [isExpired_snd_of_true hfi']
        simp [stateAfter_intervalMs]

end AsyncDelay_c

lemma pollSeq_sub (t0 p i j : Nat) (h : i ≤ j) :
    pollSeq t0 p j - pollSeq t0 p i = p * (j - i) := by
  unfold pollSeq
  have hj : j + 1 = (i + 1) + (j - i) := by omega
  rw [hj, Nat.mul_add]
  omega

/-- C5: for every timer with interval `I` polled at a fixed rate with poll
spacing `p < I` (poll `k` at time `t0 + p * (k + 1)` after construction at
`t0`), any two consecutive expiration events — polls `i < j` where
`isExpired` returns true with no expiration in between — are separated in
time by at least `I` and at most `I + p`. -/
theorem C5_periodicity (I p t0 i j : Nat)
    (_hp : 0 < p) (_hpI : p < I) (hij : i < j)
    (hi : (AsyncDelay_c.construct I t0).firesAt (pollSeq t0 p) i = true)
    (hj : (AsyncDelay_c.construct I t0).firesAt (pollSeq t0 p) j = true)
    (hmid : ∀ m, i < m → m < j →
      (AsyncDelay_c.construct I t0).firesAt (pollSeq t0 p) m = false) :
    I ≤ pollSeq t0 p j - pollSeq t0 p i ∧
    pollSeq t0 p j - pollSeq t0 p i ≤ I + p := by
  have hstate :
      (AsyncDelay_c.construct I t0).stateAfter (pollSeq t0 p) j =
        ⟨I, pollSeq t0 p i⟩ :=
    AsyncDelay_c.stateAfter_segment _ _ i j hij hi hmid
  have hjfst :
      (((AsyncDelay_c.construct I t0).stateAfter (pollSeq t0 p) j).isExpired
        (pollSeq t0 p j)).fst = true := hj
  rw [hstate, AsyncDelay_c.isExpired_fst] at hjfst
  simp only [decide_eq_true_eq] at hjfst
  have hlow : I ≤ pollSeq t0 p j - pollSeq t0 p i := hjfst
  refine ⟨hlow, ?_⟩
  by_contra hgt
  push_neg at hgt
  rw [pollSeq_sub t0 p i j (Nat.le_of_lt hij)] at hgt
  have hd1 : 1 ≤ j - i := by omega
  have hsplit : p * (j - i) = p * (j - i - 1) + p := by
    have hd : j - i = (j - i - 1) + 1 := by omega
    nth_rewrite 1 [hd]
    rw [Nat.mul_succ]
  have hbig : I + 1 ≤ p * (j - i - 1) := by omega
  have hd2 : 1 ≤ j - i - 1 := by
    by_contra hz
    have : j - i - 1 = 0 := by omega
    rw [this, Nat.mul_zero] at hbig
    omega
  have hiJ1 : i < j - 1 := by omega
  have hstate1 :
      (AsyncDelay_c.construct I t0).stateAfter (pollSeq t0 p) (j - 1) =
        ⟨I, pollSeq t0 p i⟩ :=
    AsyncDelay_c.stateAfter_segment _ _ i (j - 1) hiJ1 hi
      (fun m h1 h2 => hmid m h1 (by omega))
  have hfireJ1 :
      (AsyncDelay_c.construct I t0).firesAt (pollSeq t0 p) (j - 1) = true := by
    show (((AsyncDelay_c.construct I t0).stateAfter (pollSeq t0 p) (j - 1)).isExpired
      (pollSeq t0 p (j - 1))).fst = true
    rw [hstate1, AsyncDelay_c.isExpired_fst]
    simp only [decide_eq_true_eq]
    rw [pollSeq_sub t0 p i (j - 1) (by omega)]
    have : j - 1 - i = j - i - 1 := by omega
    rw [this]
    omega
  have := hmid (j - 1) hiJ1 (by omega)
  rw [this] at hfireJ1
  exact Bool.false_ne_true hfireJ1

/-- Witness for C5: interval 500, spacing 100, construction at time 0; the
consecutive expirations at polls 4 (time 500) and 9 (time 1000) are
separated by 500 ms, which lies between 500 and 600. -/
theorem C5_periodicity_witness :
    500 ≤ pollSeq 0 100 9 - pollSeq 0 100 4 ∧
    pollSeq 0 100 9 - pollSeq 0 100 4 ≤ 500 + 100 :=
  C5_periodicity 500 100 0 4 9 (by decide) (by decide) (by decide)
    (by decide) (by decide)
    (by intro m h1 h2; interval_cases m <;> decide)
